import Mathlib

/-!
Shallow embedding of the `abbrev-num` crate (src/lib.rs): a single pure
function that abbreviates a signed machine integer into a human-friendly
string such as "10.5k".

Machine integers are modelled as `Int`/`Nat`, with the 64-bit `isize` range
made explicit where it matters.  The dependency types
`rust_decimal::Decimal` and `rust_decimal::RoundingStrategy` are modelled by
`Decimal` (a scaled integer whose value is `mantissa * 10 ^ (-scale)`) and
`RoundingStrategy` below, following their documented semantics.  The
overflow-checked operation `isize::abs` is modelled with an explicit panic
case (`Except.error`), the standard semantics for Rust verification: `abs`
overflows exactly at `isize::MIN`.
-/

namespace AbbrevNum

/-- Model of `rust_decimal::RoundingStrategy`, the closed enumeration of
rounding policies re-exported by the crate (`pub use rust_decimal::RoundingStrategy`). -/
inductive RoundingStrategy where
  | MidpointNearestEven
  | MidpointAwayFromZero
  | MidpointTowardZero
  | ToZero
  | AwayFromZero
  | ToNegativeInfinity
  | ToPositiveInfinity
deriving DecidableEq, Repr

/-- Model of `rust_decimal::Decimal`: sign-and-magnitude scaled integer whose
numeric value is `mantissa / 10 ^ scale`. -/
structure Decimal where
  mantissa : Int
  scale : Nat
deriving DecidableEq, Repr

/-- Rounding of a nonnegative magnitude `q * d + r` (with `r < d`) down to a
multiple of the divisor `d`, following each `RoundingStrategy`'s documented
tie-breaking policy; `neg` tells whether the overall number is negative (so
that floor/ceiling can be expressed on the magnitude). -/
def roundMagnitude (strategy : RoundingStrategy) (neg : Bool) (q r d : Nat) : Nat :=
  match strategy with
  | .MidpointNearestEven =>
      if 2 * r < d then q else if d < 2 * r then q + 1 else if q % 2 = 0 then q else q + 1
  | .MidpointAwayFromZero => if 2 * r < d then q else q + 1
  | .MidpointTowardZero => if d < 2 * r then q + 1 else q
  | .ToZero => q
  | .AwayFromZero => if r = 0 then q else q + 1
  | .ToNegativeInfinity => if neg then (if r = 0 then q else q + 1) else q
  | .ToPositiveInfinity => if neg then q else (if r = 0 then q else q + 1)

/-- Model of `Decimal::round_dp_with_strategy(dp, strategy)`: rounds the
fractional part to `dp` decimal places with the given strategy; when the
current scale is already at most `dp` the value is returned unchanged. -/
def round_dp_with_strategy (dp : Nat) (strategy : RoundingStrategy) (x : Decimal) : Decimal :=
  if x.scale ≤ dp then x
  else
    let divisor := 10 ^ (x.scale - dp)
    let a := x.mantissa.natAbs
    let m := roundMagnitude strategy (decide (x.mantissa < 0)) (a / divisor) (a % divisor) divisor
    ⟨if x.mantissa < 0 then -(m : Int) else (m : Int), dp⟩

/-- Helper for `Decimal.normalize`: strips factors of ten from the mantissa
while the scale is positive. -/
def normalizeAux : Int → Nat → Decimal
  | m, 0 => ⟨m, 0⟩
  | m, s + 1 => if m % 10 = 0 then normalizeAux (m / 10) s else ⟨m, s + 1⟩

/-- Model of `Decimal::normalize()`: strips trailing fractional zeros
(`1.500` becomes `1.5`, `2.000` becomes `2`). -/
def Decimal.normalize (x : Decimal) : Decimal := normalizeAux x.mantissa x.scale

/-- Model of the `Display` implementation of `rust_decimal::Decimal`: the
optional sign, then the mantissa digits with a decimal point placed `scale`
digits from the right (padding with leading zeros so that at least one digit
stands before the point); no point at all when the scale is zero. -/
def renderDecimal (x : Decimal) : String :=
  let sign : String := if x.mantissa < 0 then "-" else ""
  let digits := Nat.repr x.mantissa.natAbs
  if x.scale = 0 then sign ++ digits
  else
    let padded := String.mk (List.replicate (x.scale + 1 - digits.length) '0') ++ digits
    sign ++ String.mk (padded.data.take (padded.length - x.scale)) ++ "." ++
      String.mk (padded.data.drop (padded.length - x.scale))

/-- Model of the Rust array type `[&str; 7]`: an abbreviation table is a list
of labels whose length is forced to be exactly 7 by the type itself. -/
structure Table where
  labels : List String
  length_eq : labels.length = 7

/-- The default list of abbreviation units (`ABBREVIATIONS` in src/lib.rs). -/
def ABBREVIATIONS : Table := ⟨["", "k", "M", "B", "T", "P", "E"], rfl⟩

/-- The custom units table used by the crate's own tests
(`can_abbreviate_using_custom_units`). -/
def customUnits : Table := ⟨["_c0", "_c1", "_c2", "_c3", "_c4", "_c5", "_c6"], rfl⟩

/-- Model of `Options` (src/lib.rs): the three independent optional fields of
the configuration.  `Default` in Rust makes every field `None`. -/
structure Options where
  precision : Option Nat
  abbreviations : Option Table
  rounding_strategy : Option RoundingStrategy

instance : Inhabited Options := ⟨⟨none, none, none⟩⟩

/-- Model of `usize::ilog10`: the base-10 logarithm of a positive integer,
rounded down.  (In Rust it panics on `0`; in `abbrev_num` the argument is
never `0` because of the early return for `number == 0`.) -/
def ilog10 (n : Nat) : Nat := Nat.log 10 n

/-- The magnitude tier computed in src/lib.rs line 56:
`(absolute.ilog10() / 3) | 0` (the `| 0` is a bitwise or with zero, an
identity kept here for faithfulness). -/
def tier (absolute : Nat) : Nat := (ilog10 absolute / 3) ||| 0

/-- `isize::MIN` on a 64-bit host. -/
def isizeMin : Int := -9223372036854775808

/-- `isize::MAX` on a 64-bit host. -/
def isizeMax : Int := 9223372036854775807

/-- Model of `absolute as f64 / 10_f64.powi(level as i32 * 3)` followed by
`Decimal::from_f64` (src/lib.rs lines 71-72).  `Decimal::from_f64` returns
`None` exactly when the float is non-finite; the quotient of a finite
nonnegative integer by a positive power of ten is always finite, so the
conversion succeeds and yields the decimal value `absolute / 10 ^ (3 * level)`.
This is exact whenever that decimal round-trips through `f64` (always the
case when it has at most 15 significant digits); the binary-float detour is
otherwise abstracted to the exact decimal value. -/
def scaledDecimal (absolute : Nat) (level : Nat) : Option Decimal :=
  some ⟨(absolute : Int), 3 * level⟩

/-- Model of `abbrev_num` (src/lib.rs lines 50-80).  The result type
`Except String (Option String)` separates a panic (`Except.error`, raised by
the overflow of `number.abs()` at `isize::MIN` under overflow-checked
semantics) from the ordinary `Option<String>` return value. -/
def abbrev_num (number : Int) (options : Option Options) : Except String (Option String) :=
  if number = 0 then
    Except.ok (some "0")
  else
    let opts := options.getD default
    if number = isizeMin then
      Except.error "attempt to negate with overflow"
    else
      let absolute : Nat := number.natAbs
      let level : Nat := tier absolute
      let sign : String := if number < 0 then "-" else ""
      let precision : Nat := opts.precision.getD 1
      match (opts.abbreviations.getD ABBREVIATIONS).labels[level]? with
      | none => Except.ok none
      | some abbreviation =>
        if level = 0 then
          Except.ok (some (sign ++ Nat.repr absolute ++ abbreviation))
        else
          match scaledDecimal absolute level with
          | none => Except.ok none
          | some d =>
            let result := round_dp_with_strategy precision
              (opts.rounding_strategy.getD RoundingStrategy.MidpointNearestEven) d
            Except.ok (some (sign ++ renderDecimal result.normalize ++ abbreviation))

/-- The numeric part of the output of `abbrev_num` (sign and digits, without
the abbreviation label); it does not depend on the abbreviation table. -/
def numericBody (number : Int) (precision? : Option Nat) (rs? : Option RoundingStrategy) : String :=
  let absolute : Nat := number.natAbs
  let level : Nat := tier absolute
  let sign : String := if number < 0 then "-" else ""
  if level = 0 then sign ++ Nat.repr absolute
  else
    match scaledDecimal absolute level with
    | none => ""
    | some d =>
      sign ++ renderDecimal (round_dp_with_strategy (precision?.getD 1)
        (rs?.getD RoundingStrategy.MidpointNearestEven) d).normalize

/-- Whether a call result is a normal return carrying a value
(`Ok(Some(_))` as opposed to `Ok(None)` or a panic). -/
def isSomeResult : Except String (Option String) → Bool
  | Except.ok (some _) => true
  | _ => false

/-! ### Helper lemmas -/

/-- Evaluation of `tier` from a power-of-ten bracketing of the argument. -/
theorem tier_eval {a k : Nat} (h1 : 10 ^ k ≤ a) (h2 : a < 10 ^ (k + 1)) : tier a = k / 3 := by
  unfold tier ilog10
  rw [Nat.log_eq_of_pow_le_of_lt_pow h1 h2, Nat.or_zero]

/-- Inputs below 1000 land in tier 0. -/
theorem tier_eq_zero {a : Nat} (h : a < 1000) : tier a = 0 := by
  unfold tier ilog10
  rw [Nat.or_zero]
  rcases Nat.eq_zero_or_pos a with h0 | h0
  · subst h0; simp
  · have hlt : Nat.log 10 a < 3 :=
      Nat.log_lt_of_lt_pow h0.ne' (lt_of_lt_of_le h (by norm_num))
    omega

/-- Any magnitude up to `2 ^ 63` (hence any `isize` absolute value) lands in
a tier at most 6. -/
theorem tier_le_six {a : Nat} (h : a ≤ 9223372036854775808) : tier a ≤ 6 := by
  unfold tier ilog10
  rw [Nat.or_zero]
  rcases Nat.eq_zero_or_pos a with h0 | h0
  · subst h0; simp
  · have hlt : Nat.log 10 a < 19 :=
      Nat.log_lt_of_lt_pow h0.ne' (lt_of_le_of_lt h (by norm_num))
    omega

/-- Array lookup (`<[&str; 7]>::get`) succeeds below index 7. -/
theorem Table.lookup_lt (t : Table) {i : Nat} (h : i < 7) :
    t.labels[i]? = some (t.labels.getD i "") := by
  have hlen : i < t.labels.length := by rw [t.length_eq]; exact h
  rw [List.getElem?_eq_getElem hlen, List.getD_eq_getElem?_getD,
    List.getElem?_eq_getElem hlen]
  rfl

/-- Array lookup (`<[&str; 7]>::get`) fails from index 7 on. -/
theorem Table.lookup_ge (t : Table) {i : Nat} (h : 7 ≤ i) :
    t.labels[i]? = none :=
  List.getElem?_eq_none (by rw [t.length_eq]; exact h)

/-- The characters produced by `Nat.digitChar` on digits are digits. -/
theorem digitChar_isDigit : ∀ m, m < 10 → (Nat.digitChar m).isDigit = true := by decide

/-- All characters accumulated by `Nat.toDigitsCore` in base 10 are digits. -/
theorem toDigitsCore_isDigit (fuel : Nat) :
    ∀ (n : Nat) (ds : List Char), (∀ c ∈ ds, c.isDigit = true) →
      ∀ c ∈ Nat.toDigitsCore 10 fuel n ds, c.isDigit = true := by
  induction fuel with
  | zero => intro n ds hds c hc; exact hds c hc
  | succ fuel ih =>
    intro n ds hds c hc
    simp only [Nat.toDigitsCore] at hc
    have hcons : ∀ c ∈ Nat.digitChar (n % 10) :: ds, c.isDigit = true := by
      intro c hc
      rcases List.mem_cons.mp hc with h | h
      · subst h; exact digitChar_isDigit _ (Nat.mod_lt _ (by norm_num))
      · exact hds c h
    split at hc
    · exact hcons c hc
    · exact ih _ _ hcons c hc

/-- The decimal rendering of a natural number consists of digits only. -/
theorem repr_isDigit (n : Nat) : ∀ c ∈ (Nat.repr n).data, c.isDigit = true := by
  intro c hc
  exact toDigitsCore_isDigit (n + 1) n [] (by intro c hc; cases hc) c hc

/-- The decimal rendering of a natural number contains no decimal point. -/
theorem repr_no_dot (n : Nat) : '.' ∉ (Nat.repr n).data := by
  intro hmem
  exact absurd (repr_isDigit n '.' hmem) (by decide)

/-- Stripping trailing zeros from a mantissa divisible by `10 ^ scale`
eliminates the whole fractional part. -/
theorem normalizeAux_scale (s : Nat) :
    ∀ m : Int, ((10 : Int) ^ s ∣ m) → (normalizeAux m s).scale = 0 := by
  induction s with
  | zero => intro m _; rfl
  | succ s ih =>
    intro m hdvd
    have h10 : (10 : Int) ∣ m := dvd_trans (dvd_pow_self 10 (Nat.succ_ne_zero s)) hdvd
    have hmod : m % 10 = 0 := Int.emod_eq_zero_of_dvd h10
    unfold normalizeAux
    rw [if_pos hmod]
    apply ih
    obtain ⟨t, ht⟩ := hdvd
    refine ⟨t, ?_⟩
    rw [ht, pow_succ, mul_comm ((10 : Int) ^ s) 10, mul_assoc,
      Int.mul_ediv_cancel_left _ (by norm_num)]

/-- When the table lookup succeeds, the result of `abbrev_num` is the numeric
body followed by the looked-up label; the body does not depend on the table. -/
theorem abbrev_num_eq_body (number : Int) (opts : Options) (l : String)
    (h0 : number ≠ 0) (hmin : number ≠ isizeMin)
    (hl : (opts.abbreviations.getD ABBREVIATIONS).labels[tier number.natAbs]? = some l) :
    abbrev_num number (some opts) =
      Except.ok (some (numericBody number opts.precision opts.rounding_strategy ++ l)) := by
  simp only [abbrev_num, numericBody, Option.getD_some, if_neg h0, if_neg hmin, hl, scaledDecimal]
  split
  · rw [String.append_assoc]
  · rw [String.append_assoc]

/-! ### Claims -/

/-- Claim C1: scaled values are rounded to the configured number of decimal
places with the configured strategy (default round-half-to-even), with exact
decimal semantics: `abbrev_num 1566450` with precision 3 yields "1.566M" and
with precision 0 yields "2M"; midpoint cases resolve by the default strategy
(ties to the nearest even digit), as shown by 1500 and 2500 at precision 0
both rounding to "2k". -/
theorem c1_rounding :
    abbrev_num 1566450 (some ⟨some 3, none, none⟩) = Except.ok (some "1.566M") ∧
    abbrev_num 1566450 (some ⟨some 0, none, none⟩) = Except.ok (some "2M") ∧
    abbrev_num 1500 (some ⟨some 0, none, none⟩) = Except.ok (some "2k") ∧
    abbrev_num 2500 (some ⟨some 0, none, none⟩) = Except.ok (some "2k") := by
  have hab1 : (1566450 : Int).natAbs = 1566450 := rfl
  have hab2 : (1500 : Int).natAbs = 1500 := rfl
  have hab3 : (2500 : Int).natAbs = 2500 := rfl
  have h1 : tier 1566450 = 2 := by
    rw [tier_eval (by norm_num : 10 ^ 6 ≤ 1566450) (by norm_num : 1566450 < 10 ^ (6 + 1))]
  have h2 : tier 1500 = 1 := by
    rw [tier_eval (by norm_num : 10 ^ 3 ≤ 1500) (by norm_num : 1500 < 10 ^ (3 + 1))]
  have h3 : tier 2500 = 1 := by
    rw [tier_eval (by norm_num : 10 ^ 3 ≤ 2500) (by norm_num : 2500 < 10 ^ (3 + 1))]
  refine ⟨?_, ?_, ?_, ?_⟩ <;> simp only [abbrev_num, hab1, hab2, hab3, h1, h2, h3] <;> rfl

/-- Claim C2 counterexample: at `isize::MIN` the computation `number.abs()`
overflows, so under overflow-checked semantics the call panics instead of
returning a value; the claim quantified over every representable input fails
there. -/
theorem c2_counterexample :
    abbrev_num isizeMin none = Except.error "attempt to negate with overflow" := rfl

/-- Claim C2 (amended): for every representable `isize` input other than
`isize::MIN`, and every configuration, `abbrev_num` returns normally;
absence is signalled through the returned `Option`, never by a crash. -/
theorem c2_no_panic (n : Int) (o : Option Options)
    (h1 : isizeMin ≤ n) (h2 : n ≤ isizeMax) (h3 : n ≠ isizeMin) :
    (abbrev_num n o).isOk = true := by
  unfold abbrev_num
  by_cases h0 : n = 0
  · rw [if_pos h0]; rfl
  · rw [if_neg h0, if_neg h3]
    simp only [scaledDecimal]
    split
    · rfl
    · split
      · rfl
      · rfl

/-- Witness for C2: the amended theorem applied at a concrete input. -/
theorem c2_no_panic_witness :
    isizeMin ≤ 12345 ∧ (12345 : Int) ≤ isizeMax ∧ (12345 : Int) ≠ isizeMin ∧
      (abbrev_num 12345 none).isOk = true :=
  ⟨by decide, by decide, by decide, c2_no_panic 12345 none (by decide) (by decide) (by decide)⟩

/-- Claim C3: with the default configuration the tier boundaries and the sign
behave as specified: 999 stays "999", 1000 becomes "1k", 1000000 becomes
"1M", and -1500 becomes "-1.5k". -/
theorem c3_boundaries :
    abbrev_num 999 none = Except.ok (some "999") ∧
    abbrev_num 1000 none = Except.ok (some "1k") ∧
    abbrev_num 1000000 none = Except.ok (some "1M") ∧
    abbrev_num (-1500) none = Except.ok (some "-1.5k") := by
  have hab1 : (999 : Int).natAbs = 999 := rfl
  have hab2 : (1000 : Int).natAbs = 1000 := rfl
  have hab3 : (1000000 : Int).natAbs = 1000000 := rfl
  have hab4 : (-1500 : Int).natAbs = 1500 := rfl
  have h1 : tier 999 = 0 := tier_eq_zero (by norm_num)
  have h2 : tier 1000 = 1 := by
    rw [tier_eval (by norm_num : 10 ^ 3 ≤ 1000) (by norm_num : 1000 < 10 ^ (3 + 1))]
  have h3 : tier 1000000 = 2 := by
    rw [tier_eval (by norm_num : 10 ^ 6 ≤ 1000000) (by norm_num : 1000000 < 10 ^ (6 + 1))]
  have h4 : tier 1500 = 1 := by
    rw [tier_eval (by norm_num : 10 ^ 3 ≤ 1500) (by norm_num : 1500 < 10 ^ (3 + 1))]
  refine ⟨?_, ?_, ?_, ?_⟩ <;> simp only [abbrev_num, hab1, hab2, hab3, hab4, h1, h2, h3, h4] <;>
    rfl

/-- Claim C4 counterexample: for tier-0 inputs the label of the active table
is appended, so with a custom table whose tier-0 label is nonempty the result
is not `sign + |n|` alone: `abbrev_num 10` with the custom units yields
"10_c0", not "10" (this matches the crate's own test fixture). -/
theorem c4_counterexample :
    abbrev_num 10 (some ⟨none, some customUnits, none⟩) = Except.ok (some "10_c0") ∧
    "10_c0" ≠ "10" := by
  constructor
  · have hab : (10 : Int).natAbs = 10 := rfl
    have ht : tier 10 = 0 := tier_eq_zero (by norm_num)
    simp only [abbrev_num, hab, ht]
    rfl
  · decide

/-- Claim C4 (amended): for every nonzero `n` with `|n| < 1000` and any
configuration, the result is `sign + |n|` concatenated verbatim with the
active table's tier-0 label (no scaling, no rounding, no decimal point);
when no custom table is supplied the default tier-0 label is empty, so the
result is exactly `sign + |n|` with no unit suffix. -/
theorem c4_tier0 (n : Int) (o : Option Options)
    (h0 : n ≠ 0) (h : n.natAbs < 1000) :
    abbrev_num n o =
      Except.ok (some ((if n < 0 then "-" else "") ++ Nat.repr n.natAbs ++
        ((o.getD default).abbreviations.getD ABBREVIATIONS).labels.getD 0 "")) ∧
    ((o.getD default).abbreviations = none →
      abbrev_num n o = Except.ok (some ((if n < 0 then "-" else "") ++ Nat.repr n.natAbs))) := by
  have hmin : n ≠ isizeMin := by
    intro e
    unfold isizeMin at e
    omega
  have ht : tier n.natAbs = 0 := tier_eq_zero h
  have hl := Table.lookup_lt ((o.getD default).abbreviations.getD ABBREVIATIONS)
    (show (0 : Nat) < 7 by norm_num)
  have hmain : abbrev_num n o =
      Except.ok (some ((if n < 0 then "-" else "") ++ Nat.repr n.natAbs ++
        ((o.getD default).abbreviations.getD ABBREVIATIONS).labels.getD 0 "")) := by
    simp only [abbrev_num, if_neg h0, if_neg hmin, ht, hl]
    rfl
  refine ⟨hmain, fun habb => ?_⟩
  rw [hmain, habb]
  simp only [Option.getD_none]
  rw [show (ABBREVIATIONS.labels.getD 0 "") = "" from rfl, String.append_empty]

/-- Witness for C4: the amended theorem applied at a concrete input. -/
theorem c4_tier0_witness :
    (-42 : Int) ≠ 0 ∧ (-42 : Int).natAbs < 1000 ∧
    abbrev_num (-42) none = Except.ok (some ((if (-42 : Int) < 0 then "-" else "") ++
      Nat.repr (-42 : Int).natAbs ++
      (((none : Option Options).getD default).abbreviations.getD ABBREVIATIONS).labels.getD 0 "")) ∧
    abbrev_num (-42) none = Except.ok (some "-42") := by
  have h := c4_tier0 (-42) none (by decide) (by decide)
  refine ⟨by decide, by decide, h.1, ?_⟩
  have h2 := h.2 rfl
  rw [h2]
  rfl

/-- Claim C5: a custom 7-entry abbreviation table replaces the default labels
tier-for-tier for every input: the numeric body of the result is unchanged
and the appended label is the custom table's entry at the computed tier. -/
theorem c5_custom_table (n : Int) (p : Option Nat) (r : Option RoundingStrategy) (t : Table)
    (h0 : n ≠ 0) (hmin : n ≠ isizeMin) (hb : n.natAbs ≤ 9223372036854775808) :
    abbrev_num n (some ⟨p, some t, r⟩) =
      Except.ok (some (numericBody n p r ++ t.labels.getD (tier n.natAbs) "")) ∧
    abbrev_num n (some ⟨p, none, r⟩) =
      Except.ok (some (numericBody n p r ++ ABBREVIATIONS.labels.getD (tier n.natAbs) "")) := by
  have ht : tier n.natAbs ≤ 6 := tier_le_six hb
  exact ⟨abbrev_num_eq_body n ⟨p, some t, r⟩ _ h0 hmin (Table.lookup_lt t (by omega)),
    abbrev_num_eq_body n ⟨p, none, r⟩ _ h0 hmin (Table.lookup_lt ABBREVIATIONS (by omega))⟩

/-- Witness for C5: the theorem applied at `10^9` with the test's custom
units, together with the resulting concrete string "1_c3". -/
theorem c5_custom_table_witness :
    (1000000000 : Int) ≠ 0 ∧ (1000000000 : Int) ≠ isizeMin ∧
    (1000000000 : Int).natAbs ≤ 9223372036854775808 ∧
    abbrev_num 1000000000 (some ⟨none, some customUnits, none⟩) =
      Except.ok (some (numericBody 1000000000 none none ++
        customUnits.labels.getD (tier (1000000000 : Int).natAbs) "")) ∧
    abbrev_num 1000000000 (some ⟨none, some customUnits, none⟩) = Except.ok (some "1_c3") := by
  refine ⟨by decide, by decide, by decide,
    (c5_custom_table 1000000000 none none customUnits (by decide) (by decide) (by decide)).1, ?_⟩
  have hab : (1000000000 : Int).natAbs = 1000000000 := rfl
  have ht : tier 1000000000 = 3 := by
    rw [tier_eval (by norm_num : 10 ^ 9 ≤ 1000000000) (by norm_num : 1000000000 < 10 ^ (9 + 1))]
  simp only [abbrev_num, hab, ht]
  rfl

/-- Claim C6: zero is abbreviated to "0" for every configuration, and
likewise for negative zero (`-0 = 0` on integers); the zero result carries no
sign and no label. -/
theorem c6_zero (o : Option Options) :
    abbrev_num 0 o = Except.ok (some "0") ∧ abbrev_num (-0) o = Except.ok (some "0") :=
  ⟨rfl, rfl⟩

/-- Claim C7: after rounding, the numeric part is normalized by stripping
trailing fractional zeros and any dangling decimal point: a rounded value
whose fractional part is all zeros (mantissa divisible by `10 ^ scale`)
renders with no decimal point; `1.0` renders as "1", `1.500` as "1.5",
`2.000` as "2", and through `abbrev_num`, 1500 gives "1.5k" and 2000000
gives "2M". -/
theorem c7_normalize (d : Decimal) (h : (10 : Int) ^ d.scale ∣ d.mantissa) :
    '.' ∉ (renderDecimal d.normalize).data ∧
    renderDecimal (Decimal.normalize ⟨10, 1⟩) = "1" ∧
    renderDecimal (Decimal.normalize ⟨1500, 3⟩) = "1.5" ∧
    renderDecimal (Decimal.normalize ⟨2000, 3⟩) = "2" ∧
    abbrev_num 1500 none = Except.ok (some "1.5k") ∧
    abbrev_num 2000000 none = Except.ok (some "2M") := by
  refine ⟨?_, rfl, rfl, rfl, ?_, ?_⟩
  · have hs : (Decimal.normalize d).scale = 0 := normalizeAux_scale d.scale d.mantissa h
    simp only [renderDecimal, hs, if_pos]
    rw [String.data_append]
    intro hmem
    rcases List.mem_append.mp hmem with hm | hm
    · revert hm
      split <;> decide
    · exact repr_no_dot _ hm
  · have hab : (1500 : Int).natAbs = 1500 := rfl
    have ht : tier 1500 = 1 := by
      rw [tier_eval (by norm_num : 10 ^ 3 ≤ 1500) (by norm_num : 1500 < 10 ^ (3 + 1))]
    simp only [abbrev_num, hab, ht]
    rfl
  · have hab : (2000000 : Int).natAbs = 2000000 := rfl
    have ht : tier 2000000 = 2 := by
      rw [tier_eval (by norm_num : 10 ^ 6 ≤ 2000000) (by norm_num : 2000000 < 10 ^ (6 + 1))]
    simp only [abbrev_num, hab, ht]
    rfl

/-- Witness for C7: the theorem applied at the decimal value `2.000`. -/
theorem c7_normalize_witness :
    (10 : Int) ^ (Decimal.mk 2000 3).scale ∣ (Decimal.mk 2000 3).mantissa ∧
    '.' ∉ (renderDecimal (Decimal.normalize ⟨2000, 3⟩)).data :=
  ⟨by decide, (c7_normalize ⟨2000, 3⟩ (by decide)).1⟩

/-- Claim C8: if the computed tier exceeds the highest index (6) of the
active abbreviation table, the table lookup fails and `abbrev_num` returns an
absent result (`Ok(None)`), not a crash. -/
theorem c8_out_of_table (n : Int) (o : Option Options)
    (h0 : n ≠ 0) (hmin : n ≠ isizeMin) (h : 6 < tier n.natAbs) :
    abbrev_num n o = Except.ok none := by
  have hl : ((o.getD default).abbreviations.getD ABBREVIATIONS).labels[tier n.natAbs]? = none :=
    Table.lookup_ge _ (by omega)
  simp only [abbrev_num, if_neg h0, if_neg hmin, hl]

/-- Witness for C8: the theorem applied at `10^21`, whose tier is 7. -/
theorem c8_out_of_table_witness :
    (1000000000000000000000 : Int) ≠ 0 ∧ (1000000000000000000000 : Int) ≠ isizeMin ∧
    6 < tier (1000000000000000000000 : Int).natAbs ∧
    abbrev_num 1000000000000000000000 none = Except.ok none := by
  have hab : (1000000000000000000000 : Int).natAbs = 1000000000000000000000 := rfl
  have ht : tier 1000000000000000000000 = 7 := by
    rw [tier_eval (by norm_num : 10 ^ 21 ≤ 1000000000000000000000)
      (by norm_num : 1000000000000000000000 < 10 ^ (21 + 1))]
  have h6 : 6 < tier (1000000000000000000000 : Int).natAbs := by rw [hab, ht]; norm_num
  exact ⟨by decide, by decide, h6,
    c8_out_of_table 1000000000000000000000 none (by decide) (by decide) h6⟩

/-- Claim C9: on a 64-bit host, for every input strictly above `isize::MIN`
(and within the `isize` range) the computed tier is at most 6, the modelled
f64-to-Decimal conversion of the scaled value succeeds, and `abbrev_num`
returns a present value, so both `None`-producing branches are unreachable.
(The third `None` source cannot even be expressed: the `[&str; 7]` table type
forces every custom table to have exactly 7 entries, which the `Table`
structure encodes by construction.) -/
theorem c9_always_some (n : Int) (o : Option Options)
    (h1 : isizeMin < n) (h2 : n ≤ isizeMax) :
    tier n.natAbs ≤ 6 ∧ (scaledDecimal n.natAbs (tier n.natAbs)).isSome = true ∧
    isSomeResult (abbrev_num n o) = true := by
  have hb : n.natAbs ≤ 9223372036854775808 := by
    unfold isizeMin at h1
    unfold isizeMax at h2
    omega
  have ht : tier n.natAbs ≤ 6 := tier_le_six hb
  refine ⟨ht, rfl, ?_⟩
  by_cases h0 : n = 0
  · subst h0; rfl
  · have hmin : n ≠ isizeMin := h1.ne'
    have hl := Table.lookup_lt ((o.getD default).abbreviations.getD ABBREVIATIONS)
      (show tier n.natAbs < 7 by omega)
    simp only [abbrev_num, if_neg h0, if_neg hmin, hl, scaledDecimal]
    split <;> rfl

/-- Witness for C9: the theorem applied at a concrete input. -/
theorem c9_always_some_witness :
    isizeMin < 123456 ∧ (123456 : Int) ≤ isizeMax ∧
    tier (123456 : Int).natAbs ≤ 6 ∧ isSomeResult (abbrev_num 123456 none) = true := by
  obtain ⟨a, _, c⟩ := c9_always_some 123456 none (by decide) (by decide)
  exact ⟨by decide, by decide, a, c⟩

/-- Claim C10: `abbrev_num` is deterministic and pure — it is modelled as a
total function of its two arguments alone (there is no state to mutate), so
two calls with identical arguments yield identical results. -/
theorem c10_deterministic (n₁ n₂ : Int) (o₁ o₂ : Option Options)
    (hn : n₁ = n₂) (ho : o₁ = o₂) : abbrev_num n₁ o₁ = abbrev_num n₂ o₂ := by
  rw [hn, ho]

/-- Witness for C10: the theorem applied at a concrete input. -/
theorem c10_deterministic_witness :
    (10500 : Int) = 10500 ∧ (none : Option Options) = none ∧
    abbrev_num 10500 none = abbrev_num 10500 none :=
  ⟨rfl, rfl, c10_deterministic 10500 10500 none none rfl rfl⟩

end AbbrevNum
